import Mathlib

set_option maxRecDepth 8192

/-
Shallow embedding of the fda-sbom-generator pipeline
(src/fda_sbom/{models,scanners,generator,exporters,solution}.py).

Conventions of the embedding:
* Python `Optional[str]` becomes `Option String`; Python truthiness of an
  optional string (`if x:`) is `truthy` below (absent or empty string is falsy).
* Python dicts with string keys become association lists in insertion order
  (CPython dicts preserve insertion order, which the source relies on).
* Timestamps are carried as opaque strings: no claim depends on their value.
* Filesystem and process effects are parameterized away (an explicit
  `pathExists` predicate, explicit file contents as strings).
-/

namespace FdaSbom

/-- Python truthiness of an optional string: `None` and `""` are falsy. -/
def truthy : Option String → Bool
  | none => false
  | some s => s ≠ ""

/-- The whitespace class of Python str.strip. -/
def isSpaceChar (c : Char) : Bool :=
  c = ' ' || c = '\t' || c = '\n' || c = '\r' || c = '\x0b' || c = '\x0c'

/-- Python str.strip: drop whitespace from both ends. (Character-level
embedding of the string primitives keeps every definition kernel-reducible.) -/
def pyStrip (s : String) : String :=
  String.mk (((s.toList.dropWhile isSpaceChar).reverse.dropWhile isSpaceChar).reverse)

/-- Python str.lower (ASCII, as every table entry is ASCII). -/
def pyLower (s : String) : String :=
  String.mk (s.toList.map Char.toLower)

/-- Python str.startswith. -/
def pyStartsWith (s p : String) : Bool :=
  p.toList.isPrefixOf s.toList

/-- Python str.endswith. -/
def pyEndsWith (s p : String) : Bool :=
  p.toList.reverse.isPrefixOf s.toList.reverse

/-- Split a character list at every occurrence of the separator, as Python
str.split with an explicit single-character separator (and as String.splitOn
for that separator). -/
def splitOnChar (sep : Char) : List Char → List (List Char)
  | [] => [[]]
  | c :: rest =>
    if c = sep then [] :: splitOnChar sep rest
    else
      match splitOnChar sep rest with
      | [] => [[c]]
      | g :: gs => (c :: g) :: gs

/-- Python `a or b` for an optional string `a` and string default `b`. -/
def orStr (o : Option String) (d : String) : String :=
  match o with
  | none => d
  | some s => if s = "" then d else s

/-- models.License: the four optional fields of the pydantic model. -/
structure License where
  spdx_id : Option String := none
  name : Option String := none
  text : Option String := none
  url : Option String := none
  deriving DecidableEq, Repr

/-- models.License.validate_spdx_id: the pydantic validator on `spdx_id`.
If the value is truthy and does not already start with the marker, it is
replaced by the marker-prefixed form. -/
def validate_spdx_id (v : Option String) : Option String :=
  match v with
  | none => none
  | some s =>
    if s ≠ "" && !(s.startsWith "SPDX-License-Identifier:") then
      some ("SPDX-License-Identifier: " ++ s)
    else
      some s

/-- Constructing a `License(spdx_id=..., name=...)` in the source runs the
pydantic validator on the `spdx_id` field. -/
def mkLicense (spdx_id name : Option String) : License :=
  { spdx_id := validate_spdx_id spdx_id, name := name }

/-- scanners.BaseScanner._normalize_license: its `spdx_mappings` table, in
dict insertion order. -/
def scanner_spdx_mappings : List (String × String) :=
  [("MIT", "MIT"),
   ("Apache-2.0", "Apache-2.0"),
   ("GPL-3.0", "GPL-3.0-only"),
   ("BSD-3-Clause", "BSD-3-Clause"),
   ("ISC", "ISC"),
   ("LGPL-2.1", "LGPL-2.1-only")]

/-- generator.SBOMGenerator._normalize_license: its `spdx_mappings` table, in
dict insertion order (it additionally carries the free-text variants). -/
def generator_spdx_mappings : List (String × String) :=
  [("MIT", "MIT"),
   ("MIT License", "MIT"),
   ("Apache-2.0", "Apache-2.0"),
   ("Apache License 2.0", "Apache-2.0"),
   ("Apache 2.0", "Apache-2.0"),
   ("GPL-3.0", "GPL-3.0-only"),
   ("BSD-3-Clause", "BSD-3-Clause"),
   ("ISC", "ISC"),
   ("LGPL-2.1", "LGPL-2.1-only")]

/-- Whether `needle` occurs as a contiguous run in `hay` (empty needle always
occurs, as for Python `in`). -/
def subListOf (needle : List Char) : List Char → Bool
  | [] => needle.isEmpty
  | c :: cs => needle.isPrefixOf (c :: cs) || subListOf needle cs

/-- Python substring containment `needle in hay` for strings. -/
def substrOf (needle hay : String) : Bool :=
  subListOf needle.toList hay.toList

/-- The body shared verbatim by the two `_normalize_license` functions, up to
the mapping table: empty input gives name Unknown; otherwise strip, try an
exact table match, then the first case-insensitive substring match in table
order, else keep only the name. Each branch constructs the pydantic License
(so the `validate_spdx_id` validator runs). -/
def normalize_license_with (table : List (String × String))
    (license_text : String) : License :=
  if license_text = "" then
    mkLicense none (some "Unknown")
  else
    let t := pyStrip license_text
    match table.lookup t with
    | some sid => mkLicense (some sid) (some t)
    | none =>
      match table.find? (fun p => substrOf (pyLower p.1) (pyLower t)) with
      | some p => mkLicense (some p.2) (some t)
      | none => mkLicense none (some t)

/-- scanners.BaseScanner._normalize_license. -/
def scanner_normalize_license (license_text : String) : License :=
  normalize_license_with scanner_spdx_mappings license_text

/-- generator.SBOMGenerator._normalize_license (used by the license
enrichment step `update_component_licenses`). -/
def generator_normalize_license (license_text : String) : License :=
  normalize_license_with generator_spdx_mappings license_text

/-- models.ComponentType. -/
inductive ComponentType where
  | library
  | framework
  | application
  | operating_system
  | device
  | firmware
  | file
  | container
  deriving DecidableEq, Repr

/-- The string value of each ComponentType enum member. -/
def ComponentType.value : ComponentType → String
  | .library => "library"
  | .framework => "framework"
  | .application => "application"
  | .operating_system => "operating-system"
  | .device => "device"
  | .firmware => "firmware"
  | .file => "file"
  | .container => "container"

/-- models.Vulnerability (datetimes carried as opaque strings; the CVSS
float score as a rational: no claim depends on float rounding). -/
structure Vulnerability where
  id : String
  severity : String
  score : Option Rat := none
  description : Option String := none
  published : Option String := none
  modified : Option String := none
  references : List String := []
  deriving DecidableEq, Repr

/-- models.Component. The field `namespc` embeds the Python field
`namespace` (a Lean keyword). -/
structure Component where
  name : String
  version : Option String := none
  type : ComponentType := .library
  namespc : Option String := none
  description : Option String := none
  package_manager : Option String := none
  package_url : Option String := none
  file_path : Option String := none
  file_hash : Option String := none
  licenses : List License := []
  dependencies : List String := []
  vulnerabilities : List Vulnerability := []
  supplier : Option String := none
  originator : Option String := none
  download_location : Option String := none
  homepage : Option String := none
  medical_device_class : Option String := none
  regulatory_status : Option String := none
  deriving DecidableEq, Repr

/-- Python string interpolation of an optional string: `None` prints as the
literal string None. -/
def optStr : Option String → String
  | none => "None"
  | some s => s

/-- The deduplication key built in generator._scan_project and
generator.merge_sboms: the interpolation of name, version and
package_manager joined by colons. -/
def componentKey (c : Component) : String :=
  c.name ++ ":" ++ optStr c.version ++ ":" ++ optStr c.package_manager

/-- The deduplication loop of generator._scan_project (and of the component
loop in generator.merge_sboms): walk the components, keep one whose key is
not in the seen set, and add its key to the seen set. -/
def dedupComponents (seen : List String) : List Component → List Component
  | [] => []
  | c :: rest =>
    if componentKey c ∈ seen then dedupComponents seen rest
    else c :: dedupComponents (componentKey c :: seen) rest

/-- The seen set after the deduplication loop has consumed a component
list (new keys are pushed on the front, as a functional set). -/
def dedupSeen (seen : List String) : List Component → List String
  | [] => seen
  | c :: rest =>
    if componentKey c ∈ seen then dedupSeen seen rest
    else dedupSeen (componentKey c :: seen) rest

/-- models.SBOM (validation/creation timestamps as opaque strings). -/
structure SBOM where
  document_id : String
  document_name : String
  document_namespace : String
  created : String := ""
  creators : List String := []
  target_system : Option String := none
  target_version : Option String := none
  components : List Component := []
  relationships : List (String × List String) := []
  fda_submission_id : Option String := none
  device_identification : Option String := none
  manufacturer : Option String := none
  model_number : Option String := none
  validation_date : Option String := none
  validation_status : Option String := none
  compliance_notes : Option String := none
  deriving DecidableEq, Repr

/-- models.SBOM.add_component: append to the component list. -/
def SBOM.add_component (s : SBOM) (c : Component) : SBOM :=
  { s with components := s.components ++ [c] }

/-- generator.merge_sboms raises ValueError (the EmptyInputError of the
spec taxonomy) when the input list is empty. -/
inductive MergeError where
  | emptyInput
  deriving DecidableEq, Repr

/-- One step of the component loop in generator.merge_sboms: state is the
merged SBOM plus the seen key set; a component is appended when its key is
new. -/
def mergeComponentStep (acc : SBOM × List String) (c : Component) :
    SBOM × List String :=
  if componentKey c ∈ acc.2 then acc
  else (acc.1.add_component c, componentKey c :: acc.2)

/-- The first metadata copy of the outer loop of generator.merge_sboms:
take the source manufacturer when the merged one is not yet truthy. -/
def mergeManufacturerStep (m sbom : SBOM) : SBOM :=
  if !truthy m.manufacturer && truthy sbom.manufacturer then
    { m with manufacturer := sbom.manufacturer }
  else m

/-- The second metadata copy of the outer loop of generator.merge_sboms:
take the source fda_submission_id when the merged one is not yet truthy. -/
def mergeFdaStep (m sbom : SBOM) : SBOM :=
  if !truthy m.fda_submission_id && truthy sbom.fda_submission_id then
    { m with fda_submission_id := sbom.fda_submission_id }
  else m

/-- One step of the outer loop of generator.merge_sboms: the two metadata
copies (Python truthiness), then the component loop. -/
def mergeBomStep (acc : SBOM × List String) (sbom : SBOM) :
    SBOM × List String :=
  sbom.components.foldl mergeComponentStep
    (mergeFdaStep (mergeManufacturerStep acc.1 sbom) sbom, acc.2)

/-- The fresh merged SBOM built at the top of generator.merge_sboms; the
two uuid4 calls are passed in as `newId` and `newNs`. -/
def mergeInitial (newId newNs merged_name : String) : SBOM :=
  { document_id := newId,
    document_name := merged_name,
    document_namespace := "https://sbom.example.com/merged/" ++ newNs,
    target_system := some merged_name,
    creators := ["fda-sbom-generator-0.1.0-merged"] }

/-- generator.SBOMGenerator.merge_sboms. -/
def merge_sboms (newId newNs : String) (sboms : List SBOM)
    (merged_name : String) : Except MergeError SBOM :=
  if sboms.isEmpty then .error .emptyInput
  else .ok (sboms.foldl mergeBomStep (mergeInitial newId newNs merged_name, [])).1

/-- The spec's first-defined metadata choice: the first truthy optional
string in the list, absent when none is truthy. -/
def firstTruthy : List (Option String) → Option String
  | [] => none
  | o :: rest => if truthy o then o else firstTruthy rest

/-- The character class of the name group in the requirement-line regex. -/
def isNameChar (c : Char) : Bool :=
  c.isAlphanum || c = '_' || c = '-'

/-- The character class of the operator group in the requirement-line
regex. -/
def isOpChar (c : Char) : Bool :=
  c = '>' || c = '=' || c = '<' || c = '~' || c = '!'

/-- The character class of the version group in the requirement-line
regex. -/
def isVerChar (c : Char) : Bool :=
  c.isDigit || c = '.'

/-- scanners.PythonScanner._parse_requirement_line. The first regex is an
anchored prefix match name-operator-version; since the name and operator
classes are disjoint, and the operator and version classes are disjoint, its
greedy groups are exactly the maximal runs taken here. The second regex is a
full match of name characters only. -/
def parse_requirement_line (line : String) : Option Component :=
  let cs := line.toList
  let nm := cs.takeWhile isNameChar
  let rest := cs.dropWhile isNameChar
  let ops := rest.takeWhile isOpChar
  let rest2 := rest.dropWhile isOpChar
  let ver := rest2.takeWhile isVerChar
  if nm ≠ [] && ops ≠ [] && ver ≠ [] then
    some { name := String.mk nm,
           version := some (String.mk ver),
           type := .library,
           package_manager := some "pip",
           package_url := some ("pkg:pypi/" ++ String.mk nm ++ "@" ++ String.mk ver) }
  else if nm ≠ [] && rest = [] then
    some { name := String.mk nm,
           type := .library,
           package_manager := some "pip",
           package_url := some ("pkg:pypi/" ++ String.mk nm) }
  else
    none

/-- scanners.PythonScanner._parse_requirements_txt on the file content:
iterate the lines, strip each, skip blank lines and lines starting with the
hash character, and collect every line the line parser accepts. -/
def parse_requirements_txt (content : String) : List Component :=
  ((splitOnChar '\n' content.toList).map String.mk).filterMap fun raw =>
    let line := pyStrip raw
    if line ≠ "" && !(pyStartsWith line "#") then parse_requirement_line line
    else none

/-- The exporter instances held by exporters.EXPORTERS. -/
inductive ExporterKind where
  | spdx
  | cyclonedx
  | swid
  | json
  deriving DecidableEq, Repr

/-- exporters.EXPORTERS: the format-name to exporter dict, in insertion
order. The first three keys are the str-Enum members SBOMFormat.SPDX,
SBOMFormat.CYCLONEDX and SBOMFormat.SWID, which hash and compare as their
string values, so the dict behaves as this string-keyed table. -/
def EXPORTERS : List (String × ExporterKind) :=
  [("spdx", .spdx), ("cyclonedx", .cyclonedx), ("swid", .swid), ("json", .json)]

/-- exporters.get_exporter raises ValueError (the UnsupportedFormatError of
the spec taxonomy) for an unknown format name. -/
inductive ExportError where
  | unsupported (format_name : String)
  deriving DecidableEq, Repr

/-- exporters.get_exporter. -/
def get_exporter (format_name : String) : Except ExportError ExporterKind :=
  match EXPORTERS.lookup format_name with
  | some e => .ok e
  | none => .error (.unsupported format_name)

/-- The scanner classes of scanners.py; `custom` stands for the externally
registered classes ScannerRegistry.register_scanner accepts. -/
inductive ScannerVariant where
  | python
  | javascript
  | java
  | dotnet
  | file
  | custom (n : Nat)
  deriving DecidableEq, Repr

/-- scanners.ScannerRegistry.__init__: the initial scanner list, FileScanner
last as fallback. -/
def initial_scanners : List ScannerVariant :=
  [.python, .javascript, .java, .dotnet, .file]

/-- scanners.ScannerRegistry.register_scanner: when the class is absent,
Python list.insert(-1, x) places it at index len-1, i.e. right before the
last element (at index 0 on an empty list, matching Nat subtraction). -/
def register_scanner (scanners : List ScannerVariant) (v : ScannerVariant) :
    List ScannerVariant :=
  if v ∈ scanners then scanners
  else scanners.insertIdx (scanners.length - 1) v

/-- scanners.ScannerRegistry.get_applicable_scanners: instantiate each class
on the project path and keep those whose can_scan holds; the path-dependent
can_scan checks are abstracted as the predicate argument. -/
def get_applicable_scanners (scanners : List ScannerVariant)
    (can_scan : ScannerVariant → Bool) : List ScannerVariant :=
  scanners.filter can_scan

/-- Drop a literal from the front of a character list, or fail. -/
def dropLit : List Char → List Char → Option (List Char)
  | [], s => some s
  | _ :: _, [] => none
  | l :: ls, c :: cs => if c = l then dropLit ls cs else none

/-- The lazy group of the solution-file regex: consume characters (any but a
newline, as the dot of Python re) up to the earliest occurrence of the given
literal, returning the consumed group and the remainder after the literal.
This is exactly the semantics of a lazy dot-star followed by the literal. -/
def scanTo (lit : List Char) (s : List Char) : Option (List Char × List Char) :=
  match dropLit lit s with
  | some rest => some ([], rest)
  | none =>
    match s with
    | [] => none
    | c :: cs =>
      if c = '\n' then none
      else
        match scanTo lit cs with
        | some p => some (c :: p.1, p.2)
        | none => none

/-- Match the solution-file project regex at the current position: the
literal Project-open-quote, a lazy run to the close-quote-equals-quote
literal, then the two captured lazy groups (project name, project path).
Returns the two groups and the remainder after the whole match. -/
def matchProjectAt (s : List Char) : Option ((String × String) × List Char) :=
  (dropLit "Project(\"".toList s).bind fun r1 =>
  (scanTo "\") = \"".toList r1).bind fun g0 =>
  (scanTo "\", \"".toList g0.2).bind fun g1 =>
  (scanTo "\"".toList g1.2).bind fun g2 =>
  some ((String.mk g1.1, String.mk g2.1), g2.2)

/-- Python re.findall over the project pattern: at each position try the
match; on success emit the groups and continue after the match, otherwise
advance one character. A successful match always consumes at least the
nine-character opening literal, so the input length bounds the number of
steps and is used as structural fuel. -/
def findallAux : Nat → List Char → List (String × String)
  | 0, _ => []
  | _, [] => []
  | fuel + 1, c :: cs =>
    match matchProjectAt (c :: cs) with
    | some (m, rest) => m :: findallAux fuel rest
    | none => findallAux fuel cs

/-- re.findall of the Project line pattern over the solution file text. -/
def findallProjects (s : List Char) : List (String × String) :=
  findallAux s.length s

/-- Python dict assignment on an insertion-ordered association list: replace
in place when the key exists, append otherwise. -/
def dictUpsert (m : List (String × List String)) (k : String)
    (v : List String) : List (String × List String) :=
  if m.any (fun p => p.1 = k) then
    m.map fun p => if p.1 = k then (k, v) else p
  else m ++ [(k, v)]

/-- pathlib resolution of `(sln_file.parent / project_path).parent` for a
slash-separated relative path: join to the directory of the solution file and
drop the file segment. Directories are segment lists. -/
def resolveParent (slnDir : List String) (relPath : String) : List String :=
  slnDir ++ (((splitOnChar '/' relPath.toList).map String.mk).dropLast)

/-- The body of the match loop of _scan_dotnet_solution: keep an entry whose
path ends in .csproj or .vbproj and whose resolved containing directory
exists, storing it in the projects dict under the project name. -/
def slnProjectStep (slnDir : List String) (pathExists : List String → Bool)
    (projects : List (String × List String)) (m : String × String) :
    List (String × List String) :=
  if pyEndsWith m.2 ".csproj" || pyEndsWith m.2 ".vbproj" then
    if pathExists (resolveParent slnDir m.2) then
      dictUpsert projects m.1 (resolveParent slnDir m.2)
    else projects
  else projects

/-- solution.SolutionScanner._scan_dotnet_solution for one solution file:
findall the Project entries in its content, keep those whose path ends in
.csproj or .vbproj, resolve each to its containing directory, keep it when
that directory exists, and collect into the name-to-directory dict.
Filesystem existence is the `pathExists` parameter. -/
def scan_dotnet_solution (slnDir : List String) (content : String)
    (pathExists : List String → Bool) : List (String × List String) :=
  (findallProjects content.toList).foldl (slnProjectStep slnDir pathExists) []

/-- JSON documents as built by the exporters; objects are key-value lists in
insertion order, mirroring the Python dicts that json.dump serializes. -/
inductive Json where
  | null
  | bool (b : Bool)
  | num (q : Rat)
  | str (s : String)
  | arr (xs : List Json)
  | obj (fields : List (String × Json))

/-- Field lookup in a JSON object. -/
def jget (j : Json) (k : String) : Option Json :=
  match j with
  | .obj fs => fs.lookup k
  | _ => none

/-- Rendering of the CVSS float score into text. Python float formatting is
abstracted; no claim depends on it. -/
def ratStr (q : Rat) : String :=
  toString q

/-- Python truthiness of the optional float score: absent and 0.0 are
falsy. -/
def truthyScore : Option Rat → Bool
  | none => false
  | some q => q ≠ 0

/-- exporters.SPDXExporter.export: the root package dict, with the optional
versionInfo and supplier entries of the source. -/
def spdx_root_package (sbom : SBOM) : Json :=
  .obj
    ([("SPDXID", .str "SPDXRef-Package"),
      ("name", .str (orStr sbom.target_system sbom.document_name)),
      ("downloadLocation", .str "NOASSERTION"),
      ("filesAnalyzed", .bool false),
      ("copyrightText", .str "NOASSERTION")]
     ++ (if truthy sbom.target_version then
           [("versionInfo", .str (sbom.target_version.getD ""))]
         else [])
     ++ (if truthy sbom.manufacturer then
           [("supplier", .str ("Organization: " ++ sbom.manufacturer.getD ""))]
         else []))

/-- The SPDX license identifier list of one component: the raw (validated)
spdx_id when truthy, else the LicenseRef form of the name when truthy. -/
def spdx_license_info (licenses : List License) : List String :=
  licenses.filterMap fun l =>
    if truthy l.spdx_id then some (l.spdx_id.getD "")
    else if truthy l.name then
      some ("LicenseRef-" ++ (l.name.getD "").replace " " "-")
    else none

/-- One vulnerability annotation dict of the SPDX exporter; `now` carries
the datetime.now() call of the source. -/
def spdx_vuln_review (now : String) (v : Vulnerability) : Json :=
  .obj
    [("annotationType", .str "REVIEW"),
     ("annotator", .str "Tool: fda-sbom-generator"),
     ("annotationDate", .str (now ++ "Z")),
     ("annotationComment",
      .str ("Vulnerability " ++ v.id ++ ": " ++ v.severity ++ " severity"
            ++ (if truthyScore v.score then
                  " (CVSS: " ++ ratStr (v.score.getD 0) ++ ")"
                else "")))]

/-- One component package dict of the SPDX exporter (`i` is the zero-based
position in the component list). -/
def spdx_component_package (now : String) (i : Nat) (c : Component) : Json :=
  .obj
    ([("SPDXID", .str ("SPDXRef-Package-" ++ toString (i + 1))),
      ("name", .str c.name),
      ("downloadLocation", .str (orStr c.download_location "NOASSERTION")),
      ("filesAnalyzed", .bool false),
      ("copyrightText", .str "NOASSERTION")]
     ++ (if truthy c.version then [("versionInfo", .str (c.version.getD ""))] else [])
     ++ (if truthy c.description then
           [("description", .str (c.description.getD ""))]
         else [])
     ++ (if truthy c.homepage then [("homepage", .str (c.homepage.getD ""))] else [])
     ++ (if truthy c.supplier then
           [("supplier", .str ("Organization: " ++ c.supplier.getD ""))]
         else [])
     ++ (if truthy c.package_url then
           [("externalRefs",
             .arr [.obj
               [("referenceCategory", .str "PACKAGE-MANAGER"),
                ("referenceType", .str "purl"),
                ("referenceLocator", .str (c.package_url.getD ""))]])]
         else [])
     ++ (if !c.licenses.isEmpty && !(spdx_license_info c.licenses).isEmpty then
           [("licenseConcluded",
             .str (String.intercalate " AND " (spdx_license_info c.licenses))),
            ("licenseDeclared",
             .str (String.intercalate " AND " (spdx_license_info c.licenses)))]
         else [])
     ++ (if !c.vulnerabilities.isEmpty then
           [("annotations", .arr (c.vulnerabilities.map (spdx_vuln_review now)))]
         else []))

/-- One DEPENDS_ON relationship dict of the SPDX exporter. -/
def spdx_relationship (i : Nat) : Json :=
  .obj
    [("spdxElementId", .str "SPDXRef-Package"),
     ("relationshipType", .str "DEPENDS_ON"),
     ("relatedSpdxElement", .str ("SPDXRef-Package-" ++ toString (i + 1)))]

/-- exporters.SPDXExporter.export: the full document dict (the file write is
the serialization of this value). -/
def spdx_export (now : String) (sbom : SBOM) : Json :=
  .obj
    [("spdxVersion", .str "SPDX-2.3"),
     ("dataLicense", .str "CC0-1.0"),
     ("SPDXID", .str "SPDXRef-DOCUMENT"),
     ("name", .str sbom.document_name),
     ("documentNamespace", .str sbom.document_namespace),
     ("creationInfo",
      .obj [("created", .str (sbom.created ++ "Z")),
            ("creators", .arr (sbom.creators.map .str)),
            ("licenseListVersion", .str "3.19")]),
     ("packages",
      .arr (spdx_root_package sbom ::
            sbom.components.enum.map fun p => spdx_component_package now p.1 p.2)),
     ("relationships",
      .arr (sbom.components.enum.map fun p => spdx_relationship p.1))]

/-- exporters.CycloneDXExporter._map_component_type: identity on the eight
known type values with library as the fallback default. -/
def map_component_type (component_type : String) : String :=
  let mapping :=
    [("library", "library"), ("framework", "framework"),
     ("application", "application"), ("operating-system", "operating-system"),
     ("device", "device"), ("firmware", "firmware"), ("file", "file"),
     ("container", "container")]
  (mapping.lookup component_type).getD "library"

/-- One license dict of the CycloneDX exporter. -/
def cyclonedx_license (l : License) : Json :=
  .obj
    ((if truthy l.spdx_id then [("id", .str (l.spdx_id.getD ""))]
      else if truthy l.name then [("name", .str (l.name.getD ""))]
      else [])
     ++ (if truthy l.url then [("url", .str (l.url.getD ""))] else []))

/-- One vulnerability dict of the CycloneDX exporter. -/
def cyclonedx_vulnerability (v : Vulnerability) : Json :=
  .obj
    ([("id", .str v.id),
      ("source", .obj [("name", .str "OSV"), ("url", .str "https://osv.dev")])]
     ++ (if truthy v.description then
           [("description", .str (v.description.getD ""))]
         else [])
     ++ (if truthyScore v.score then
           [("ratings",
             .arr [.obj [("source", .obj [("name", .str "CVSS")]),
                         ("score", .num (v.score.getD 0)),
                         ("severity", .str v.severity.toUpper)]])]
         else [])
     ++ (if !v.references.isEmpty then
           [("advisories",
             .arr (v.references.map fun r => .obj [("url", .str r)]))]
         else []))

/-- One component dict of the CycloneDX exporter. -/
def cyclonedx_component (c : Component) : Json :=
  .obj
    ([("type", .str (map_component_type c.type.value)),
      ("name", .str c.name),
      ("bom-ref", .str (c.name ++ "@" ++ orStr c.version "unknown"))]
     ++ (if truthy c.version then [("version", .str (c.version.getD ""))] else [])
     ++ (if truthy c.description then
           [("description", .str (c.description.getD ""))]
         else [])
     ++ (if truthy c.namespc then [("group", .str (c.namespc.getD ""))] else [])
     ++ (if truthy c.package_url then
           [("purl", .str (c.package_url.getD ""))]
         else [])
     ++ (if truthy c.supplier then
           [("supplier", .obj [("name", .str (c.supplier.getD ""))])]
         else [])
     ++ (if !c.licenses.isEmpty then
           [("licenses", .arr (c.licenses.map cyclonedx_license))]
         else [])
     ++ (if !c.vulnerabilities.isEmpty then
           [("vulnerabilities", .arr (c.vulnerabilities.map cyclonedx_vulnerability))]
         else []))

/-- The metadata dict of the CycloneDX exporter: timestamp and tools always;
the component entry only when manufacturer or target_system is truthy. -/
def cyclonedx_metadata (sbom : SBOM) : Json :=
  .obj
    ([("timestamp", .str (sbom.created ++ "Z")),
      ("tools",
       .arr [.obj [("vendor", .str "FDA SBOM Generator"),
                   ("name", .str "fda-sbom-generator"),
                   ("version", .str "0.1.0")]])]
     ++ (if truthy sbom.manufacturer || truthy sbom.target_system then
           [("component",
             .obj ([("type", .str "application"),
                    ("name", .str (orStr sbom.target_system sbom.document_name))]
                   ++ (if truthy sbom.target_version then
                         [("version", .str (sbom.target_version.getD ""))]
                       else [])
                   ++ (if truthy sbom.manufacturer then
                         [("supplier",
                           .obj [("name", .str (sbom.manufacturer.getD ""))])]
                       else [])))]
         else []))

/-- exporters.CycloneDXExporter.export: the full document dict. -/
def cyclonedx_export (sbom : SBOM) : Json :=
  .obj
    [("bomFormat", .str "CycloneDX"),
     ("specVersion", .str "1.4"),
     ("serialNumber", .str ("urn:uuid:" ++ sbom.document_id)),
     ("version", .num 1),
     ("metadata", cyclonedx_metadata sbom),
     ("components", .arr (sbom.components.map cyclonedx_component))]

/-- XML elements as built by the SWID exporter: tag, attributes in set
order, children in creation order. -/
inductive Xml where
  | elem (tag : String) (attrs : List (String × String)) (children : List Xml)

/-- The children of an XML element. -/
def Xml.childrenOf : Xml → List Xml
  | .elem _ _ cs => cs

/-- The Entity child of the SWID root. -/
def swid_entity (sbom : SBOM) : Xml :=
  .elem "Entity"
    [("name", orStr sbom.manufacturer "Unknown"),
     ("role", "tagCreator softwareCreator")]
    []

/-- The Meta child of the SWID root. -/
def swid_meta : Xml :=
  .elem "Meta" [("generator", "fda-sbom-generator-0.1.0")] []

/-- One Directory-File pair of the SWID Payload. -/
def swid_directory (c : Component) : Xml :=
  .elem "Directory" [("name", c.name)]
    [.elem "File"
      ([("name", c.name)]
       ++ (if truthy c.version then [("version", c.version.getD "")] else [])
       ++ (if truthy c.file_hash then [("SHA256", c.file_hash.getD "")] else []))
      []]

/-- One Link child of the SWID root. -/
def swid_link (c : Component) : Xml :=
  .elem "Link" [("href", c.package_url.getD ""), ("rel", "component")] []

/-- exporters.SWIDExporter.export: the root SoftwareIdentity element; the
namespace is a plain xmlns attribute, the Payload child exists only when
components do, and one Link child follows per component. -/
def swid_export (sbom : SBOM) : Xml :=
  .elem "SoftwareIdentity"
    ([("xmlns", "http://standards.iso.org/iso/19770/-2/2015/schema.xsd"),
      ("tagId", sbom.document_id),
      ("name", sbom.document_name),
      ("tagVersion", "0"),
      ("corpus", "false"),
      ("patch", "false"),
      ("supplemental", "false")]
     ++ (if truthy sbom.target_version then
           [("version", sbom.target_version.getD "")]
         else []))
    ([swid_entity sbom, swid_meta]
     ++ (if !sbom.components.isEmpty then
           [.elem "Payload" [] (sbom.components.map swid_directory)]
         else [])
     ++ sbom.components.map swid_link)

/-- Pydantic dump of an optional string: absent becomes JSON null. -/
def optJson : Option String → Json
  | none => .null
  | some s => .str s

/-- Pydantic dict dump of a License, fields in declaration order. -/
def json_of_license (l : License) : Json :=
  .obj
    [("spdx_id", optJson l.spdx_id), ("name", optJson l.name),
     ("text", optJson l.text), ("url", optJson l.url)]

/-- Pydantic dict dump of a Vulnerability, fields in declaration order. -/
def json_of_vulnerability (v : Vulnerability) : Json :=
  .obj
    [("id", .str v.id), ("severity", .str v.severity),
     ("score", match v.score with | none => .null | some q => .num q),
     ("description", optJson v.description),
     ("published", optJson v.published),
     ("modified", optJson v.modified),
     ("references", .arr (v.references.map .str))]

/-- Pydantic dict dump of a Component, fields in declaration order. -/
def json_of_component (c : Component) : Json :=
  .obj
    [("name", .str c.name),
     ("version", optJson c.version),
     ("type", .str c.type.value),
     ("namespace", optJson c.namespc),
     ("description", optJson c.description),
     ("package_manager", optJson c.package_manager),
     ("package_url", optJson c.package_url),
     ("file_path", optJson c.file_path),
     ("file_hash", optJson c.file_hash),
     ("licenses", .arr (c.licenses.map json_of_license)),
     ("dependencies", .arr (c.dependencies.map .str)),
     ("vulnerabilities", .arr (c.vulnerabilities.map json_of_vulnerability)),
     ("supplier", optJson c.supplier),
     ("originator", optJson c.originator),
     ("download_location", optJson c.download_location),
     ("homepage", optJson c.homepage),
     ("medical_device_class", optJson c.medical_device_class),
     ("regulatory_status", optJson c.regulatory_status)]

/-- exporters.JSONExporter.export: the pydantic dict dump of the whole SBOM,
fields in declaration order. -/
def json_export (sbom : SBOM) : Json :=
  .obj
    [("document_id", .str sbom.document_id),
     ("document_name", .str sbom.document_name),
     ("document_namespace", .str sbom.document_namespace),
     ("created", .str sbom.created),
     ("creators", .arr (sbom.creators.map .str)),
     ("target_system", optJson sbom.target_system),
     ("target_version", optJson sbom.target_version),
     ("components", .arr (sbom.components.map json_of_component)),
     ("relationships",
      .obj (sbom.relationships.map fun p => (p.1, .arr (p.2.map Json.str)))),
     ("fda_submission_id", optJson sbom.fda_submission_id),
     ("device_identification", optJson sbom.device_identification),
     ("manufacturer", optJson sbom.manufacturer),
     ("model_number", optJson sbom.model_number),
     ("validation_date", optJson sbom.validation_date),
     ("validation_status", optJson sbom.validation_status),
     ("compliance_notes", optJson sbom.compliance_notes)]

/-- The first component of the C3 collision pair: a Maven-style name
containing a colon. -/
def dedupCexA : Component :=
  { name := "a:b", version := some "c", package_manager := some "x" }

/-- The second component of the C3 collision pair: a different identity
triple with the same colon-joined key. -/
def dedupCexB : Component :=
  { name := "a", version := some "b:c", package_manager := some "x" }

/-- A source BOM with a manufacturer, for the C4 witness. -/
def bomAcme : SBOM :=
  { document_id := "1", document_name := "a", document_namespace := "na",
    manufacturer := some "Acme" }

/-- A source BOM without manufacturer, for the C4 witness. -/
def bomPlain : SBOM :=
  { document_id := "2", document_name := "b", document_namespace := "nb" }

/-- A BOM with no components, for the C7 witness. -/
def bomEmpty : SBOM :=
  { document_id := "d", document_name := "n", document_namespace := "ns" }

/-- A small solution file for C6: two Project entries referencing .csproj
projects and one solution-folder entry whose path is not a project file. -/
def slnExample : String :=
  "Microsoft Visual Studio Solution File\nProject(\"X\") = \"ProjA\", \"ProjA/ProjA.csproj\", \"g1\"\nEndProject\nProject(\"F\") = \"Items\", \"Items\", \"g2\"\nEndProject\nProject(\"X\") = \"ProjB\", \"ProjB/ProjB.csproj\", \"g3\"\nEndProject\n"

/-- C1: normalizeLicense is claimed to return raw SPDX identifiers.
The embedded code shows the divergence: on input MIT the pydantic validator
rewrites the spdx_id to the marker-prefixed form, not the raw string MIT;
the empty-string and unmatched cases behave as claimed. -/
theorem c1_normalize_license_not_raw :
    scanner_normalize_license "MIT" =
      { spdx_id := some "SPDX-License-Identifier: MIT", name := some "MIT" } ∧
    (scanner_normalize_license "MIT").spdx_id ≠ some "MIT" ∧
    scanner_normalize_license "" = { name := some "Unknown" } ∧
    scanner_normalize_license "Something Custom" =
      { name := some "Something Custom" } := by
  refine ⟨rfl, ?_, rfl, rfl⟩
  decide

/-- C2 counterexample: the scanner normalization and the generator
normalization disagree on the free-text variant Apache License 2.0, so there
is not one shared normalization routine returning equal License values for
every input. -/
theorem c2_shared_routine_counterexample :
    scanner_normalize_license "Apache License 2.0" ≠
      generator_normalize_license "Apache License 2.0" := by
  decide

/-- C2 amended: the scanners and the license-enrichment step carry two
separate mapping tables; the generator table strictly extends the scanner
table with the free-text variants Apache License 2.0 and Apache 2.0 (mapped
to Apache-2.0), which the scanner table lacks, and the two routines return
different License values on those inputs. -/
theorem c2_two_normalization_tables :
    (∀ p ∈ scanner_spdx_mappings, p ∈ generator_spdx_mappings) ∧
    generator_spdx_mappings.lookup "Apache License 2.0" = some "Apache-2.0" ∧
    generator_spdx_mappings.lookup "Apache 2.0" = some "Apache-2.0" ∧
    scanner_spdx_mappings.lookup "Apache License 2.0" = none ∧
    scanner_spdx_mappings.lookup "Apache 2.0" = none ∧
    scanner_normalize_license "Apache 2.0" ≠
      generator_normalize_license "Apache 2.0" := by
  refine ⟨by decide, rfl, rfl, rfl, rfl, by decide⟩

/-- C2 witness: the amended theorem applied at the concrete table entry
for MIT. -/
theorem c2_two_normalization_tables_witness :
    ("MIT", "MIT") ∈ generator_spdx_mappings :=
  c2_two_normalization_tables.1 ("MIT", "MIT") (by decide)

/-- Membership in the deduplicated list: kept exactly when the key is not
in the seen set and the component occurs at a position no earlier element
of which shares its key. -/
theorem mem_dedupComponents (seen : List String) (l : List Component)
    (c : Component) :
    c ∈ dedupComponents seen l ↔
      componentKey c ∉ seen ∧
      ∃ pre post, l = pre ++ c :: post ∧
        componentKey c ∉ pre.map componentKey := by
  induction l generalizing seen with
  | nil =>
    simp [dedupComponents]
  | cons a t ih =>
    by_cases hmem : componentKey a ∈ seen
    · rw [dedupComponents, if_pos hmem, ih]
      constructor
      · rintro ⟨hs, pre, post, rfl, hpre⟩
        refine ⟨hs, a :: pre, post, rfl, ?_⟩
        simp only [List.map_cons, List.mem_cons, not_or]
        exact ⟨fun h => hs (h ▸ hmem), hpre⟩
      · rintro ⟨hs, pre, post, hdec, hpre⟩
        match pre, hdec with
        | [], hdec =>
          cases hdec
          exact absurd hmem hs
        | a' :: pre, hdec =>
          cases hdec
          simp only [List.map_cons, List.mem_cons, not_or] at hpre
          exact ⟨hs, pre, post, rfl, hpre.2⟩
    · rw [dedupComponents, if_neg hmem]
      simp only [List.mem_cons, ih]
      constructor
      · rintro (rfl | ⟨hs, pre, post, rfl, hpre⟩)
        · exact ⟨hmem, [], t, rfl, by simp⟩
        · simp only [List.mem_cons, not_or] at hs
          refine ⟨hs.2, a :: pre, post, rfl, ?_⟩
          simp only [List.map_cons, List.mem_cons, not_or]
          exact ⟨hs.1, hpre⟩
      · rintro ⟨hs, pre, post, hdec, hpre⟩
        match pre, hdec with
        | [], hdec =>
          cases hdec
          exact Or.inl rfl
        | a' :: pre, hdec =>
          cases hdec
          simp only [List.map_cons, List.mem_cons, not_or] at hpre
          refine Or.inr ⟨?_, pre, post, rfl, hpre.2⟩
          simp only [List.mem_cons, not_or]
          exact ⟨hpre.1, hs⟩

/-- The keys of the deduplicated list are pairwise distinct and disjoint
from the seen set. -/
theorem dedupComponents_keys_nodup (seen : List String) (l : List Component) :
    ((dedupComponents seen l).map componentKey).Nodup ∧
    ∀ k ∈ (dedupComponents seen l).map componentKey, k ∉ seen := by
  induction l generalizing seen with
  | nil => simp [dedupComponents]
  | cons a t ih =>
    by_cases hmem : componentKey a ∈ seen
    · rw [dedupComponents, if_pos hmem]
      exact ih seen
    · rw [dedupComponents, if_neg hmem]
      obtain ⟨hnd, hdisj⟩ := ih (componentKey a :: seen)
      refine ⟨?_, ?_⟩
      · simp only [List.map_cons, List.nodup_cons]
        exact ⟨fun h => (hdisj _ h) (List.mem_cons_self _ _), hnd⟩
      · intro k hk
        simp only [List.map_cons, List.mem_cons] at hk
        rcases hk with rfl | hk
        · exact hmem
        · exact fun h => (hdisj k hk) (List.mem_cons_of_mem _ h)

/-- The component fold of merge_sboms appends exactly the deduplicated
components and threads the seen set accordingly. -/
theorem merge_component_fold (cs : List Component) (m : SBOM)
    (seen : List String) :
    cs.foldl mergeComponentStep (m, seen) =
      ({ m with components := m.components ++ dedupComponents seen cs },
       dedupSeen seen cs) := by
  induction cs generalizing m seen with
  | nil => simp [dedupComponents, dedupSeen]
  | cons c rest ih =>
    by_cases h : componentKey c ∈ seen
    · simp [List.foldl_cons, mergeComponentStep, h, dedupComponents, dedupSeen, ih]
    · simp [List.foldl_cons, mergeComponentStep, h, dedupComponents, dedupSeen, ih,
            SBOM.add_component]

/-- Deduplication splits over append, threading the seen set. -/
theorem dedupComponents_append (seen : List String) (cs1 cs2 : List Component) :
    dedupComponents seen (cs1 ++ cs2) =
      dedupComponents seen cs1 ++ dedupComponents (dedupSeen seen cs1) cs2 ∧
    dedupSeen seen (cs1 ++ cs2) = dedupSeen (dedupSeen seen cs1) cs2 := by
  induction cs1 generalizing seen with
  | nil => simp [dedupComponents, dedupSeen]
  | cons c rest ih =>
    by_cases h : componentKey c ∈ seen <;>
      simp [dedupComponents, dedupSeen, h, ih]

/-- The metadata copies do not touch the component list. -/
theorem mergeMeta_components (m sbom : SBOM) :
    (mergeFdaStep (mergeManufacturerStep m sbom) sbom).components =
      m.components := by
  rw [mergeFdaStep, mergeManufacturerStep]
  split <;> split <;> rfl

/-- The outer fold of merge_sboms accumulates the deduplicated concatenation
of all source component lists. -/
theorem merge_bom_fold_components (sboms : List SBOM) (m : SBOM)
    (seen : List String) :
    (sboms.foldl mergeBomStep (m, seen)).1.components =
      m.components ++ dedupComponents seen (sboms.map SBOM.components).flatten ∧
    (sboms.foldl mergeBomStep (m, seen)).2 =
      dedupSeen seen (sboms.map SBOM.components).flatten := by
  induction sboms generalizing m seen with
  | nil => simp [dedupComponents, dedupSeen]
  | cons s rest ih =>
    simp only [List.foldl_cons, List.map_cons, List.flatten_cons]
    rw [mergeBomStep, merge_component_fold]
    obtain ⟨h1, h2⟩ := ih _ _
    rw [h1, h2]
    obtain ⟨ha, hs⟩ :=
      dedupComponents_append seen s.components (rest.map SBOM.components).flatten
    rw [ha, hs]
    exact ⟨by rw [mergeMeta_components, List.append_assoc], rfl⟩

/-- C3 counterexample: the dedup key is the colon-joined interpolation, so
the two components of the collision pair have different identity triples yet
the second is dropped: it is the first in scan order with its triple, but it
is not retained. -/
theorem c3_dedup_triple_counterexample :
    dedupComponents [] [dedupCexA, dedupCexB] = [dedupCexA] ∧
    (dedupCexA.name, dedupCexA.version, dedupCexA.package_manager) ≠
      (dedupCexB.name, dedupCexB.version, dedupCexB.package_manager) ∧
    componentKey dedupCexA = componentKey dedupCexB := by
  refine ⟨by decide, by decide, by decide⟩

/-- C3 amended: deduplication in scanProject and in mergeBoms retains a
component if and only if it is the first in scan order whose colon-joined
key string name:version:packageManager occurs (absent fields interpolated
as None); exactly one entry per key is kept; this coincides with the
identity-triple reading only when the rendered fields are colon-free.
The merged BOM of merge_sboms carries exactly this deduplication of the
concatenated source components. -/
theorem c3_dedup_first_by_key :
    (∀ (l : List Component) (c : Component),
      c ∈ dedupComponents [] l ↔
        ∃ pre post, l = pre ++ c :: post ∧
          componentKey c ∉ pre.map componentKey) ∧
    (∀ l : List Component, ((dedupComponents [] l).map componentKey).Nodup) ∧
    (∀ (newId newNs : String) (sboms : List SBOM) (name : String) (b : SBOM),
      merge_sboms newId newNs sboms name = .ok b →
      b.components = dedupComponents [] (sboms.map SBOM.components).flatten) := by
  refine ⟨?_, ?_, ?_⟩
  · intro l c
    rw [mem_dedupComponents]
    simp
  · intro l
    exact (dedupComponents_keys_nodup [] l).1
  · intro newId newNs sboms name b hb
    rw [merge_sboms] at hb
    by_cases h : sboms.isEmpty
    · rw [if_pos h] at hb; cases hb
    · rw [if_neg h] at hb
      cases hb
      rw [(merge_bom_fold_components sboms _ []).1]
      simp [mergeInitial]

/-- C3 amended witness: the first collision component is retained because
it is the first occurrence of its key. -/
theorem c3_dedup_first_by_key_witness :
    dedupCexA ∈ dedupComponents [] [dedupCexA, dedupCexB] :=
  (c3_dedup_first_by_key.1 [dedupCexA, dedupCexB] dedupCexA).mpr
    ⟨[], [dedupCexB], rfl, by decide⟩

/-- C5: parsing the four-line requirements content yields exactly the three
components requests 2.28.0, click 8.0 and pytest without version, in order;
the comment line is skipped. -/
theorem c5_parse_requirements_txt :
    parse_requirements_txt "requests==2.28.0\nclick>=8.0\n# comment\npytest\n" =
      [{ name := "requests", version := some "2.28.0",
         package_manager := some "pip",
         package_url := some "pkg:pypi/requests@2.28.0" },
       { name := "click", version := some "8.0",
         package_manager := some "pip",
         package_url := some "pkg:pypi/click@8.0" },
       { name := "pytest", package_manager := some "pip",
         package_url := some "pkg:pypi/pytest" }] := by
  rfl

/-- The two metadata copies leave the manufacturer of the merged SBOM
unchanged unless it is not yet truthy and the source one is. -/
theorem mergeMeta_manufacturer (m sbom : SBOM) :
    (mergeFdaStep (mergeManufacturerStep m sbom) sbom).manufacturer =
      if !truthy m.manufacturer && truthy sbom.manufacturer then
        sbom.manufacturer
      else m.manufacturer := by
  rw [mergeFdaStep, mergeManufacturerStep]
  split <;> split <;> simp_all

/-- The two metadata copies leave the fda_submission_id of the merged SBOM
unchanged unless it is not yet truthy and the source one is. -/
theorem mergeMeta_fda (m sbom : SBOM) :
    (mergeFdaStep (mergeManufacturerStep m sbom) sbom).fda_submission_id =
      if !truthy m.fda_submission_id && truthy sbom.fda_submission_id then
        sbom.fda_submission_id
      else m.fda_submission_id := by
  rw [mergeFdaStep, mergeManufacturerStep]
  split <;> split <;> simp_all

/-- The outer fold of merge_sboms resolves the manufacturer first-wins:
starting from an absent (or already truthy) manufacturer, the result is the
first truthy source manufacturer. -/
theorem merge_fold_manufacturer (sboms : List SBOM) (m : SBOM)
    (seen : List String)
    (h : m.manufacturer = none ∨ truthy m.manufacturer = true) :
    (sboms.foldl mergeBomStep (m, seen)).1.manufacturer =
      if truthy m.manufacturer then m.manufacturer
      else firstTruthy (sboms.map SBOM.manufacturer) := by
  induction sboms generalizing m seen with
  | nil =>
    rcases h with h0 | h1
    · simp [firstTruthy, h0, truthy]
    · simp [h1]
  | cons s rest ih =>
    simp only [List.foldl_cons, List.map_cons, firstTruthy]
    rw [mergeBomStep]
    simp only []
    rw [merge_component_fold]
    rw [ih _ _ ?_]
    · show (if truthy (mergeFdaStep (mergeManufacturerStep m s) s).manufacturer
              then _ else _) = _
      rw [mergeMeta_manufacturer]
      by_cases hm : truthy m.manufacturer
      · simp [hm]
      · simp only [Bool.not_eq_true] at hm
        by_cases hs : truthy s.manufacturer
        · simp [hm, hs]
        · simp only [Bool.not_eq_true] at hs
          simp [hm, hs]
    · show ({ mergeFdaStep (mergeManufacturerStep m s) s with
               components := _ } : SBOM).manufacturer = none ∨ _
      rw [show ({ mergeFdaStep (mergeManufacturerStep m s) s with
                   components := (mergeFdaStep (mergeManufacturerStep m s) s).components
                     ++ dedupComponents seen s.components } : SBOM).manufacturer =
            (mergeFdaStep (mergeManufacturerStep m s) s).manufacturer from rfl]
      rw [mergeMeta_manufacturer]
      by_cases hm : truthy m.manufacturer
      · simp [hm]
      · simp only [Bool.not_eq_true] at hm
        by_cases hs : truthy s.manufacturer
        · simp [hm, hs]
        · simp only [Bool.not_eq_true] at hs
          simp [hm, hs]
          rcases h with h0 | h1
          · exact h0
          · rw [hm] at h1; cases h1

/-- The outer fold of merge_sboms resolves the fda_submission_id
first-wins, symmetrically. -/
theorem merge_fold_fda (sboms : List SBOM) (m : SBOM) (seen : List String)
    (h : m.fda_submission_id = none ∨ truthy m.fda_submission_id = true) :
    (sboms.foldl mergeBomStep (m, seen)).1.fda_submission_id =
      if truthy m.fda_submission_id then m.fda_submission_id
      else firstTruthy (sboms.map SBOM.fda_submission_id) := by
  induction sboms generalizing m seen with
  | nil =>
    rcases h with h0 | h1
    · simp [firstTruthy, h0, truthy]
    · simp [h1]
  | cons s rest ih =>
    simp only [List.foldl_cons, List.map_cons, firstTruthy]
    rw [mergeBomStep]
    simp only []
    rw [merge_component_fold]
    rw [ih _ _ ?_]
    · show (if truthy (mergeFdaStep (mergeManufacturerStep m s) s).fda_submission_id
              then _ else _) = _
      rw [mergeMeta_fda]
      by_cases hm : truthy m.fda_submission_id
      · simp [hm]
      · simp only [Bool.not_eq_true] at hm
        by_cases hs : truthy s.fda_submission_id
        · simp [hm, hs]
        · simp only [Bool.not_eq_true] at hs
          simp [hm, hs]
    · show ({ mergeFdaStep (mergeManufacturerStep m s) s with
               components := _ } : SBOM).fda_submission_id = none ∨ _
      rw [show ({ mergeFdaStep (mergeManufacturerStep m s) s with
                   components := (mergeFdaStep (mergeManufacturerStep m s) s).components
                     ++ dedupComponents seen s.components } : SBOM).fda_submission_id =
            (mergeFdaStep (mergeManufacturerStep m s) s).fda_submission_id from rfl]
      rw [mergeMeta_fda]
      by_cases hm : truthy m.fda_submission_id
      · simp [hm]
      · simp only [Bool.not_eq_true] at hm
        by_cases hs : truthy s.fda_submission_id
        · simp [hm, hs]
        · simp only [Bool.not_eq_true] at hs
          simp [hm, hs]
          rcases h with h0 | h1
          · exact h0
          · rw [hm] at h1; cases h1

/-- C4: merging the empty BOM list fails with the empty-input error; merging
a non-empty list succeeds with manufacturer and fda_submission_id copied
from the first source BOM that defines each of them (first-wins). -/
theorem c4_merge_sboms_first_wins (newId newNs : String) (sboms : List SBOM)
    (name : String) (h : sboms ≠ []) :
    merge_sboms newId newNs [] name = .error .emptyInput ∧
    ∃ b, merge_sboms newId newNs sboms name = .ok b ∧
      b.manufacturer = firstTruthy (sboms.map SBOM.manufacturer) ∧
      b.fda_submission_id = firstTruthy (sboms.map SBOM.fda_submission_id) := by
  refine ⟨rfl, ?_⟩
  rw [merge_sboms, if_neg (by simpa using h)]
  refine ⟨_, rfl, ?_, ?_⟩
  · rw [merge_fold_manufacturer sboms _ _ (Or.inl rfl)]
    rfl
  · rw [merge_fold_fda sboms _ _ (Or.inl rfl)]
    rfl

/-- C4 witness: the claim instance with bom1.manufacturer Acme and bom2
unset merges to manufacturer Acme. -/
theorem c4_merge_sboms_first_wins_witness :
    merge_sboms "id" "ns" [] "X" = .error .emptyInput ∧
    ∃ b, merge_sboms "id" "ns" [bomAcme, bomPlain] "X" = .ok b ∧
      b.manufacturer = some "Acme" ∧ b.fda_submission_id = none := by
  obtain ⟨h1, b, h2, h3, h4⟩ :=
    c4_merge_sboms_first_wins "id" "ns" [bomAcme, bomPlain] "X" (by simp)
  exact ⟨h1, b, h2, h3.trans (by decide), h4.trans (by decide)⟩

/-- C8: exporter selection is the flat lookup: each of the four known
format names yields its exporter and every other name fails with the
unsupported-format error. -/
theorem c8_get_exporter_lookup :
    get_exporter "spdx" = .ok .spdx ∧
    get_exporter "cyclonedx" = .ok .cyclonedx ∧
    get_exporter "swid" = .ok .swid ∧
    get_exporter "json" = .ok .json ∧
    ∀ s : String, s ∉ (["spdx", "cyclonedx", "swid", "json"] : List String) →
      get_exporter s = .error (.unsupported s) := by
  refine ⟨rfl, rfl, rfl, rfl, fun s hs => ?_⟩
  simp only [List.mem_cons, List.not_mem_nil, or_false, not_or] at hs
  obtain ⟨h1, h2, h3, h4⟩ := hs
  have e1 : (s == "spdx") = false := beq_eq_false_iff_ne.mpr h1
  have e2 : (s == "cyclonedx") = false := beq_eq_false_iff_ne.mpr h2
  have e3 : (s == "swid") = false := beq_eq_false_iff_ne.mpr h3
  have e4 : (s == "json") = false := beq_eq_false_iff_ne.mpr h4
  simp [get_exporter, EXPORTERS, List.lookup, e1, e2, e3, e4]

/-- C8 witness: the unknown format name xml is rejected. -/
theorem c8_get_exporter_lookup_witness :
    get_exporter "xml" = .error (.unsupported "xml") :=
  c8_get_exporter_lookup.2.2.2.2 "xml" (by decide)

/-- Inserting at the pre-last position of a list with a distinguished last
element places the new element right before it. -/
theorem insertIdx_before_last (r : List ScannerVariant) (v a : ScannerVariant) :
    (r ++ [a]).insertIdx ((r ++ [a]).length - 1) v = r ++ [v, a] := by
  induction r with
  | nil => rfl
  | cons c rest ih =>
    have hlen : ((c :: rest) ++ [a]).length - 1 = (rest ++ [a]).length := by
      simp
    rw [hlen, List.cons_append]
    have hlen2 : (rest ++ [a]).length = ((rest ++ [a]).length - 1) + 1 := by
      simp
    rw [hlen2, List.insertIdx_succ_cons, ih]
    rfl

/-- Every registry reachable from the initial one by register_scanner calls
ends in the fallback FileScanner. -/
theorem register_fold_shape (vs : List ScannerVariant) (r : List ScannerVariant)
    (h : ∃ r0, r = r0 ++ [ScannerVariant.file]) :
    ∃ r0, vs.foldl register_scanner r = r0 ++ [ScannerVariant.file] := by
  induction vs generalizing r with
  | nil => exact h
  | cons v vs ih =>
    refine ih (register_scanner r v) ?_
    obtain ⟨r0, rfl⟩ := h
    rw [register_scanner]
    by_cases hv : v ∈ r0 ++ [ScannerVariant.file]
    · rw [if_pos hv]; exact ⟨r0, rfl⟩
    · rw [if_neg hv, insertIdx_before_last]
      exact ⟨r0 ++ [v], by simp⟩

/-- C9: after any sequence of registrations starting from the initial
registry, the fallback FileScanner is the last element; registering a new
variant inserts it immediately before the fallback; and the applicable
subset is a sublist of the registry (registration order preserved). -/
theorem c9_registry_fallback_pinned_last (vs : List ScannerVariant)
    (v : ScannerVariant) (p : ScannerVariant → Bool)
    (hv : v ∉ vs.foldl register_scanner initial_scanners) :
    (vs.foldl register_scanner initial_scanners).getLast? =
      some ScannerVariant.file ∧
    register_scanner (vs.foldl register_scanner initial_scanners) v =
      (vs.foldl register_scanner initial_scanners).dropLast ++
        [v, ScannerVariant.file] ∧
    (get_applicable_scanners (vs.foldl register_scanner initial_scanners) p).Sublist
      (vs.foldl register_scanner initial_scanners) := by
  obtain ⟨r0, hr⟩ := register_fold_shape vs initial_scanners
    ⟨[.python, .javascript, .java, .dotnet], rfl⟩
  refine ⟨?_, ?_, ?_⟩
  · rw [hr]
    exact List.getLast?_concat _
  · rw [hr] at hv ⊢
    rw [register_scanner, if_neg hv, insertIdx_before_last,
        List.dropLast_concat]
  · exact List.filter_sublist _

/-- C9 witness: the theorem applied to one concrete registration. -/
theorem c9_registry_fallback_pinned_last_witness :
    ([ScannerVariant.custom 0].foldl register_scanner initial_scanners).getLast? =
      some ScannerVariant.file ∧
    register_scanner
        ([ScannerVariant.custom 0].foldl register_scanner initial_scanners)
        (ScannerVariant.custom 1) =
      ([ScannerVariant.custom 0].foldl register_scanner initial_scanners).dropLast ++
        [ScannerVariant.custom 1, ScannerVariant.file] ∧
    (get_applicable_scanners
        ([ScannerVariant.custom 0].foldl register_scanner initial_scanners)
        (fun _ => true)).Sublist
      ([ScannerVariant.custom 0].foldl register_scanner initial_scanners) :=
  c9_registry_fallback_pinned_last [.custom 0] (.custom 1) (fun _ => true)
    (by decide)

/-- C10: registering an already-present scanner class leaves the registry
unchanged, so registering the same class twice equals registering it
once. -/
theorem c10_register_scanner_idempotent (r : List ScannerVariant)
    (v : ScannerVariant) :
    (v ∈ r → register_scanner r v = r) ∧
    register_scanner (register_scanner r v) v = register_scanner r v := by
  constructor
  · intro h
    rw [register_scanner, if_pos h]
  · by_cases h : v ∈ r
    · have hr : register_scanner r v = r := by rw [register_scanner, if_pos h]
      rw [hr]
      exact hr
    · have hv : v ∈ register_scanner r v := by
        rw [register_scanner, if_neg h]
        exact (List.mem_insertIdx (by simp [Nat.sub_le])).mpr (Or.inl rfl)
      rw [register_scanner, if_pos hv]

/-- C10 witness: the theorem applied at a concrete registry and variant. -/
theorem c10_register_scanner_idempotent_witness :
    register_scanner initial_scanners ScannerVariant.file = initial_scanners ∧
    register_scanner (register_scanner initial_scanners (ScannerVariant.custom 0))
        (ScannerVariant.custom 0) =
      register_scanner initial_scanners (ScannerVariant.custom 0) :=
  ⟨(c10_register_scanner_idempotent initial_scanners .file).1 (by decide),
   (c10_register_scanner_idempotent initial_scanners (.custom 0)).2⟩

/-- A successful dropLit consumes exactly the literal. -/
theorem dropLit_length (lit : List Char) :
    ∀ (s r : List Char), dropLit lit s = some r →
      s.length = lit.length + r.length := by
  induction lit with
  | nil =>
    intro s r h
    rw [dropLit] at h
    cases h
    simp
  | cons l ls ih =>
    intro s r h
    match s with
    | [] => cases h
    | c :: cs =>
      rw [dropLit] at h
      split at h
      · have := ih cs r h
        simp [this]
        omega
      · cases h

/-- A successful scanTo splits the input into group, literal and rest. -/
theorem scanTo_length (lit : List Char) :
    ∀ (s g r : List Char), scanTo lit s = some (g, r) →
      s.length = g.length + lit.length + r.length := by
  intro s
  induction s with
  | nil =>
    intro g r h
    rw [scanTo] at h
    cases hd : dropLit lit ([] : List Char) with
    | some u =>
      rw [hd] at h
      simp only [Option.some.injEq, Prod.mk.injEq] at h
      obtain ⟨hg, hr⟩ := h
      have hlen := dropLit_length lit [] u hd
      subst hg hr
      have h0 : ([] : List Char).length = 0 := rfl
      omega
    | none =>
      rw [hd] at h
      cases h
  | cons c cs ih =>
    intro g r h
    rw [scanTo] at h
    cases hd : dropLit lit (c :: cs) with
    | some u =>
      rw [hd] at h
      simp only [Option.some.injEq, Prod.mk.injEq] at h
      obtain ⟨hg, hr⟩ := h
      have hlen := dropLit_length lit (c :: cs) u hd
      subst hg hr
      have h0 : ([] : List Char).length = 0 := rfl
      omega
    | none =>
      rw [hd] at h
      by_cases hnl : c = '\n'
      · rw [if_pos hnl] at h
        cases h
      · rw [if_neg hnl] at h
        cases hrec : scanTo lit cs with
        | some p =>
          rw [hrec] at h
          simp only [Option.some.injEq, Prod.mk.injEq] at h
          obtain ⟨hg, hr⟩ := h
          have hlen := ih p.1 p.2 (by rw [hrec])
          subst hg hr
          have e1 : (c :: cs).length = cs.length + 1 := rfl
          have e2 : (c :: p.1).length = p.1.length + 1 := rfl
          omega
        | none =>
          rw [hrec] at h
          cases h

/-- A successful project match consumes at least the opening literal. -/
theorem matchProjectAt_length (s : List Char) (m : String × String)
    (rest : List Char) (h : matchProjectAt s = some (m, rest)) :
    rest.length < s.length := by
  rw [matchProjectAt] at h
  cases h1 : dropLit "Project(\"".toList s with
  | none => rw [h1] at h; cases h
  | some r1 =>
    rw [h1] at h
    simp only [Option.some_bind] at h
    cases h2 : scanTo "\") = \"".toList r1 with
    | none => rw [h2] at h; cases h
    | some g0 =>
      rw [h2] at h
      simp only [Option.some_bind] at h
      cases h3 : scanTo "\", \"".toList g0.2 with
      | none => rw [h3] at h; cases h
      | some g1 =>
        rw [h3] at h
        simp only [Option.some_bind] at h
        cases h4 : scanTo "\"".toList g1.2 with
        | none => rw [h4] at h; cases h
        | some g2 =>
          rw [h4] at h
          simp only [Option.some_bind, Option.some.injEq, Prod.mk.injEq] at h
          obtain ⟨-, hrest⟩ := h
          subst hrest
          have l1 := dropLit_length _ _ _ h1
          have l2 := scanTo_length _ r1 g0.1 g0.2 (by rw [h2])
          have l3 := scanTo_length _ g0.2 g1.1 g1.2 (by rw [h3])
          have l4 := scanTo_length _ g1.2 g2.1 g2.2 (by rw [h4])
          have e1 : ("Project(\"".toList).length = 9 := rfl
          have e2 : ("\") = \"".toList).length = 6 := rfl
          have e3 : ("\", \"".toList).length = 4 := rfl
          have e4 : ("\"".toList).length = 1 := rfl
          omega

/-- findallAux is stable under any fuel at least the input length, so the
length fuel of findallProjects computes the untruncated findall. -/
theorem findallAux_stable :
    ∀ (f1 : Nat) (s : List Char) (f2 : Nat), s.length ≤ f1 → s.length ≤ f2 →
      findallAux f1 s = findallAux f2 s := by
  intro f1
  induction f1 with
  | zero =>
    intro s f2 h1 _
    have hnil : s = [] := List.eq_nil_of_length_eq_zero (Nat.le_zero.mp h1)
    subst hnil
    cases f2 <;> rfl
  | succ f1 ih =>
    intro s f2 h1 h2
    match s with
    | [] => cases f2 <;> rfl
    | c :: cs =>
      match f2 with
      | 0 => simp at h2
      | f2 + 1 =>
        simp only [List.length_cons] at h1 h2
        cases hm : matchProjectAt (c :: cs) with
        | some p =>
          obtain ⟨mm, rest⟩ := p
          have hlt := matchProjectAt_length (c :: cs) mm rest hm
          simp only [List.length_cons] at hlt
          show (match matchProjectAt (c :: cs) with
                | some (m, rest) => m :: findallAux f1 rest
                | none => findallAux f1 cs) = _
          rw [hm]
          show mm :: findallAux f1 rest = findallAux (f2 + 1) (c :: cs)
          rw [ih rest f2 (by omega) (by omega)]
          show mm :: findallAux f2 rest =
            (match matchProjectAt (c :: cs) with
             | some (m, rest) => m :: findallAux f2 rest
             | none => findallAux f2 cs)
          rw [hm]
        | none =>
          show (match matchProjectAt (c :: cs) with
                | some (m, rest) => m :: findallAux f1 rest
                | none => findallAux f1 cs) = _
          rw [hm]
          show findallAux f1 cs = _
          rw [ih cs f2 (by omega) (by omega)]
          show findallAux f2 cs =
            (match matchProjectAt (c :: cs) with
             | some (m, rest) => m :: findallAux f2 rest
             | none => findallAux f2 cs)
          rw [hm]

/-- Entries of a dict after an upsert are old entries or the new pair. -/
theorem dictUpsert_mem (acc : List (String × List String)) (k : String)
    (v : List String) (e : String × List String)
    (he : e ∈ dictUpsert acc k v) : e ∈ acc ∨ e = (k, v) := by
  rw [dictUpsert] at he
  split at he
  · rw [List.mem_map] at he
    obtain ⟨p, hp, hpe⟩ := he
    by_cases hpk : p.1 = k
    · rw [if_pos hpk] at hpe
      exact Or.inr hpe.symm
    · rw [if_neg hpk] at hpe
      exact Or.inl (hpe ▸ hp)
  · rw [List.mem_append] at he
    rcases he with h0 | h0
    · exact Or.inl h0
    · simp at h0
      exact Or.inr h0

/-- Every entry produced by the solution-scan fold comes from the initial
dict or from a findall match whose path passes the project-file filter and
resolves to the stored directory. -/
theorem sln_fold_mem (slnDir : List String) (pathExists : List String → Bool) :
    ∀ (ms : List (String × String)) (acc : List (String × List String))
      (e : String × List String),
      e ∈ ms.foldl (slnProjectStep slnDir pathExists) acc →
      e ∈ acc ∨ ∃ m, m ∈ ms ∧ e.1 = m.1 ∧
        (pyEndsWith m.2 ".csproj" || pyEndsWith m.2 ".vbproj") = true ∧
        e.2 = resolveParent slnDir m.2 := by
  intro ms
  induction ms with
  | nil =>
    intro acc e he
    exact Or.inl he
  | cons m ms ih =>
    intro acc e he
    rw [List.foldl_cons] at he
    rcases ih _ e he with hacc | ⟨m', hm', hrest⟩
    · rw [slnProjectStep] at hacc
      split at hacc
      · split at hacc
        · rcases dictUpsert_mem _ _ _ _ hacc with h0 | h0
          · exact Or.inl h0
          · right
            refine ⟨m, List.mem_cons_self _ _, ?_, by assumption, ?_⟩
            · rw [h0]
            · rw [h0]
        · exact Or.inl hacc
      · exact Or.inl hacc
    · exact Or.inr ⟨m', List.mem_cons_of_mem _ hm', hrest⟩

/-- C6: on the example solution file referencing two .csproj projects plus a
solution-folder entry, discovery returns exactly the two project names
mapped to the directories containing the project files; and in general every
returned entry stems from a Project match whose path ends in .csproj or
.vbproj (all other entries are excluded). -/
theorem c6_dotnet_solution_discovery :
    scan_dotnet_solution ["root"] slnExample (fun _ => true) =
      [("ProjA", ["root", "ProjA"]), ("ProjB", ["root", "ProjB"])] ∧
    ∀ (slnDir : List String) (content : String)
      (pathExists : List String → Bool) (e : String × List String),
      e ∈ scan_dotnet_solution slnDir content pathExists →
      ∃ m, m ∈ findallProjects content.toList ∧ e.1 = m.1 ∧
        (pyEndsWith m.2 ".csproj" || pyEndsWith m.2 ".vbproj") = true ∧
        e.2 = resolveParent slnDir m.2 := by
  constructor
  · rfl
  · intro slnDir content pathExists e he
    rcases sln_fold_mem slnDir pathExists _ [] e he with h0 | h
    · cases h0
    · exact h

/-- C6 witness: the theorem applied at the ProjA entry of the example. -/
theorem c6_dotnet_solution_discovery_witness :
    ∃ m, m ∈ findallProjects slnExample.toList ∧
      (("ProjA", ["root", "ProjA"]) : String × List String).1 = m.1 ∧
      (pyEndsWith m.2 ".csproj" || pyEndsWith m.2 ".vbproj") = true ∧
      (("ProjA", ["root", "ProjA"]) : String × List String).2 =
        resolveParent ["root"] m.2 :=
  c6_dotnet_solution_discovery.2 ["root"] slnExample (fun _ => true)
    ("ProjA", ["root", "ProjA"])
    (by rw [c6_dotnet_solution_discovery.1]; exact List.mem_cons_self _ _)

/-- C7: on a BOM with no components every exporter emits the minimal
document: the SPDX packages list holds only the root package and there are
no DEPENDS_ON relationships; the CycloneDX components array is empty; the
SWID root has only the Entity and Meta children (no Payload, no Link); and
the native JSON dump has an empty components list. -/
theorem c7_exporters_empty_components (now : String) (sbom : SBOM)
    (h : sbom.components = []) :
    jget (spdx_export now sbom) "packages" =
      some (.arr [spdx_root_package sbom]) ∧
    jget (spdx_export now sbom) "relationships" = some (.arr []) ∧
    jget (cyclonedx_export sbom) "components" = some (.arr []) ∧
    Xml.childrenOf (swid_export sbom) = [swid_entity sbom, swid_meta] ∧
    jget (json_export sbom) "components" = some (.arr []) := by
  refine ⟨?_, ?_, ?_, ?_, ?_⟩ <;>
    simp [spdx_export, cyclonedx_export, swid_export, json_export, jget,
          Xml.childrenOf, h, List.lookup]

/-- C7 witness: the theorem applied at a concrete empty-component BOM. -/
theorem c7_exporters_empty_components_witness :
    jget (spdx_export "t" bomEmpty) "packages" =
      some (.arr [spdx_root_package bomEmpty]) ∧
    jget (spdx_export "t" bomEmpty) "relationships" = some (.arr []) ∧
    jget (cyclonedx_export bomEmpty) "components" = some (.arr []) ∧
    Xml.childrenOf (swid_export bomEmpty) = [swid_entity bomEmpty, swid_meta] ∧
    jget (json_export bomEmpty) "components" = some (.arr []) :=
  c7_exporters_empty_components "t" bomEmpty rfl

end FdaSbom
